import Mathlib

/-!
Verification of the analysis pipeline of the tiktok-confidence-coach
repository.  The repository ships a browser frontend (`app.js`, present in
the source tree) and a Flask backend (`app.py`, referenced by the README but
not present in the source tree).  The backend pipeline — pause detection,
context-window extraction and prompt-generation orchestration — is therefore
modelled from the specification; the frontend behaviour (`analyzeBtn.onclick`,
`displayResults`) is embedded from `app.js` directly.

Seconds are represented exactly as rationals (ℚ).
-/

/-- Modelled from the spec: a transcript word with word-level timing,
`Word = \x7b text, start: seconds, end: seconds \x7d` (spec §3).  `end` is a
Lean keyword, hence the guillemets. -/
structure Word where
  text : String
  start : ℚ
  «end» : ℚ
deriving DecidableEq, Repr

/-- Modelled from the spec: a detected gap, before prompt generation:
`pause_start` is the end time of the word preceding the gap, `duration` the
gap length (spec §3, §4.1). -/
structure PauseEvent where
  pause_start : ℚ
  duration : ℚ
deriving DecidableEq, Repr

/-- Modelled from the spec: the transcript contract (spec §3): every word has
`start <= end`, and consecutive words have non-decreasing `start` times. -/
def valid_words : List Word → Bool
  | [] => true
  | [w] => decide (w.start ≤ w.«end»)
  | w1 :: w2 :: rest =>
      decide (w1.start ≤ w1.«end») && decide (w1.start ≤ w2.start)
        && valid_words (w2 :: rest)

/-- Modelled from the spec: the pause-detection scan (spec §4.1): for each
consecutive pair `(w[i], w[i+1])` the gap is `w[i+1].start - w[i].end`; a gap
`>= threshold` (inclusive) emits a pause with `pause_start = w[i].end` and
`duration = gap`. -/
def detect_gaps : List Word → ℚ → List PauseEvent
  | w1 :: w2 :: rest, t =>
      let gap := w2.start - w1.«end»
      if t ≤ gap then ⟨w1.«end», gap⟩ :: detect_gaps (w2 :: rest) t
      else detect_gaps (w2 :: rest) t
  | _, _ => []

/-- Modelled from the spec: detector failure mode (spec §4.1): overlapping or
out-of-order word timings make the detector fail fast. -/
inductive DetectError where
  | invalidTimings
deriving DecidableEq, Repr

/-- Modelled from the spec: the Pause Detector boundary (spec §4.1): on a
contract-violating transcript it fails fast rather than silently reordering;
otherwise it returns the ordered gap scan. -/
def detect_pauses (words : List Word) (threshold : ℚ) :
    Except DetectError (List PauseEvent) :=
  if valid_words words then .ok (detect_gaps words threshold)
  else .error .invalidTimings

/-- Specification-side restatement for claim C1 (spec §4.1 algorithm prose):
exactly one pause per consecutive pair whose gap reaches the threshold, as a
filterMap over the zipped consecutive pairs. -/
def gap_pauses_spec (words : List Word) (t : ℚ) : List PauseEvent :=
  (words.zip words.tail).filterMap fun p =>
    if t ≤ p.2.start - p.1.«end» then some ⟨p.1.«end», p.2.start - p.1.«end»⟩
    else none

/-- Modelled from the spec: the Context Window Extractor word selection
(spec §4.2): every word whose `end <= pause_start` and
`end >= pause_start - window_seconds`, clamping the window start at 0, in
original order. -/
def context_words (words : List Word) (pause_start window : ℚ) : List Word :=
  let windowStart := max 0 (pause_start - window)
  words.filter fun w => decide (w.«end» ≤ pause_start) && decide (windowStart ≤ w.«end»)

/-- Modelled from the spec: the Context Window Extractor (spec §4.2): selected
words joined with single spaces. -/
def get_context (words : List Word) (pause_start window : ℚ) : String :=
  String.intercalate " " ((context_words words pause_start window).map Word.text)

-- Orchestrator (modelled from the spec, backend app.py absent from src/) ---

/-- Modelled from the spec: Prompt Generator failure modes (spec §4.3):
`GenerationTimeout`, `GenerationServiceError`, `RateLimited`. -/
inductive GenError where
  | timeout
  | serviceError
  | rateLimited
deriving DecidableEq, Repr

/-- Modelled from the spec: the generic fallback continuation prompt
substituted when generation fails or the context is empty (spec §4.3,
glossary "Fallback prompt"). -/
def fallback_prompt : String :=
  "Take a breath and keep going - tell us more about your topic."

/-- Modelled from the spec: prompt selection for one pause (spec §4.3): an
empty context skips the external call and substitutes the generic prompt; a
generation failure is masked by the same fallback. -/
def prompt_for (g : Except GenError String) (ctx : String) : String :=
  if ctx = "" then fallback_prompt
  else
    match g with
    | .ok s => s
    | .error _ => fallback_prompt

/-- Modelled from the spec: a finished pause entry of the AnalysisResult
(spec §3). -/
structure Pause where
  pause_start : ℚ
  duration : ℚ
  context_text : String
  ai_prompt : String
deriving DecidableEq, Repr

/-- Modelled from the spec: the summary statistics of one run (spec §3). -/
structure Stats where
  duration : ℚ
  word_count : ℕ
  pause_count : ℕ
deriving DecidableEq, Repr

/-- Modelled from the spec: the sole externally visible output of one
pipeline run (spec §3). -/
structure AnalysisResult where
  transcript : String
  stats : Stats
  pauses : List Pause
deriving DecidableEq, Repr

/-- Modelled from the spec: transcript duration = end time of the last word,
or 0 if the transcript is empty (spec §3). -/
def transcript_duration (words : List Word) : ℚ :=
  match words.getLast? with
  | none => 0
  | some w => w.«end»

/-- Modelled from the spec: derived `full_text`, concatenation of the words
with single-space separators (spec §3). -/
def full_text (words : List Word) : String :=
  String.intercalate " " (words.map Word.text)

/-- Modelled from the spec: product constants — pause threshold 3.0 seconds
(spec §4.1). -/
def default_threshold : ℚ := 3

/-- Modelled from the spec: product constants — context window 15 seconds
(spec §4.2). -/
def default_window : ℚ := 15

/-- Modelled from the spec: request-level failure taxonomy (spec §7):
`InputError` for empty audio, `TranscriptionError` fatal for the request. -/
inductive PipelineError where
  | inputError
  | transcriptionError (msg : String)
deriving DecidableEq, Repr

/-- Modelled from the spec: assemble one Pause from a detected gap: run the
Context Window Extractor, then the Prompt Generator with per-pause fallback
(spec §4.4 step 4). -/
def mk_pause (words : List Word) (g : Except GenError String)
    (e : PauseEvent) : Pause :=
  let ctx := get_context words e.pause_start default_window
  { pause_start := e.pause_start, duration := e.duration,
    context_text := ctx, ai_prompt := prompt_for g ctx }

/-- Modelled from the spec: process the detected gaps in `pause_start` order;
the generation outcome for pause `k` is `gen k` and a failure for pause `k`
does not block pause `k+1` (spec §4.4 step 4). -/
def build_pauses (words : List Word) (gen : ℕ → Except GenError String) :
    ℕ → List PauseEvent → List Pause
  | _, [] => []
  | i, e :: rest => mk_pause words (gen i) e :: build_pauses words gen (i + 1) rest

/-- Modelled from the spec: the Analysis Orchestrator (spec §4.4).  Audio is
abstracted by its byte size, the Transcript Source by its outcome, and the
Prompt Generator by a per-pause outcome map.  The second component records
whether the transcription boundary was invoked.  A transcript violating the
timing contract is a contract violation at the transcription boundary and is
fatal, like a transcription failure. -/
def run_analysis (audioSize : ℕ) (transcribe : Except String (List Word))
    (gen : ℕ → Except GenError String) :
    Except PipelineError AnalysisResult × Bool :=
  if audioSize = 0 then (.error .inputError, false)
  else
    match transcribe with
    | .error msg => (.error (.transcriptionError msg), true)
    | .ok words =>
      match detect_pauses words default_threshold with
      | .error _ => (.error (.transcriptionError "invalid word timings"), true)
      | .ok events =>
        let pauses := build_pauses words gen 0 events
        (.ok { transcript := full_text words,
               stats := { duration := transcript_duration words,
                          word_count := words.length,
                          pause_count := pauses.length },
               pauses := pauses }, true)

/-- Pauses of a pipeline outcome (empty on failure), used to state claims. -/
def resultPauses : Except PipelineError AnalysisResult → List Pause
  | .ok r => r.pauses
  | .error _ => []

/-- A Pause with its `ai_prompt` forgotten, used to state that generation
outcomes do not affect which pauses are returned. -/
def stripPrompt (p : Pause) : ℚ × ℚ × String :=
  (p.pause_start, p.duration, p.context_text)

-- Frontend (embedded from src/app.js) --------------------------------------

/-- Per-pause entry of the JSON response body, as `displayResults` consumes
it (`src/app.js` lines 185-196). -/
structure RespPause where
  pause_start : ℚ
  duration : ℚ
  ai_prompt : String
deriving DecidableEq, Repr

/-- The `stats` object of the JSON response; each field may be absent
(`undefined` in JS), as `displayResults` guards with `?.` and `|| 0`
(`src/app.js` lines 169-171). -/
structure RespStats where
  duration : Option ℚ
  word_count : Option ℕ
  pause_count : Option ℕ
deriving DecidableEq, Repr

/-- The response object passed to `displayResults`; the `stats`, `transcript`
and `pauses` fields may each be absent (`src/app.js` lines 163-205). -/
structure AnalyzeResponse where
  stats : Option RespStats
  transcript : Option String
  pauses : Option (List RespPause)
deriving DecidableEq, Repr

/-- JavaScript `x || d` on an optional number: `undefined` and `0` are falsy
and yield the default. -/
def jsOrQ (v : Option ℚ) (d : ℚ) : ℚ :=
  match v with
  | none => d
  | some x => if x = 0 then d else x

/-- JavaScript `x || d` on an optional natural number. -/
def jsOrN (v : Option ℕ) (d : ℕ) : ℕ :=
  match v with
  | none => d
  | some x => if x = 0 then d else x

/-- The three numbers `displayResults` renders into `videoStats`:
`data.stats?.duration || 0`, `data.stats?.word_count || 0`,
`data.stats?.pause_count || 0` (`src/app.js` lines 169-171). -/
def displayedStats (data : AnalyzeResponse) : ℚ × ℕ × ℕ :=
  (jsOrQ (data.stats.bind RespStats.duration) 0,
   jsOrN (data.stats.bind RespStats.word_count) 0,
   jsOrN (data.stats.bind RespStats.pause_count) 0)

/-- The default label of the Analyze button (`src/app.js` lines 158, 207,
226). -/
def analyzeLabelDefault : String := "<span class=\"icon\">⚡</span> Analyze with AI"

/-- The spinner label shown while the analyze request is in flight
(`src/app.js` line 134). -/
def analyzeLabelLoading : String := "<span class=\"loading-spinner\"></span> Analyzing..."

/-- The frontend state touched by `analyzeBtn.onclick`: the recorded blob
(`none` = no recording, `some n` = blob of `n` bytes), the Analyze button's
disabled flag and label, and the status line (`src/app.js`). -/
structure UIState where
  videoBlob : Option ℕ
  analyzeDisabled : Bool
  analyzeLabel : String
  statusMsg : String
  statusType : String
deriving DecidableEq, Repr

/-- Outcome of the `fetch` to `POST /analyze`: a parsed JSON body on a 2xx
response, or the caught error message — a non-ok response and a network
failure both land in the same `catch` block (`src/app.js` lines 140-159). -/
inductive FetchOutcome where
  | ok (data : AnalyzeResponse)
  | failure (errMsg : String)

/-- State changes `displayResults` makes to the modelled UI fields: it clears
the status and resets the Analyze button label, but does not re-enable the
button (`src/app.js` lines 163-209). -/
def applyDisplayResults (s : UIState) : UIState :=
  { s with statusMsg := "", statusType := "",
           analyzeLabel := analyzeLabelDefault }

/-- The `analyzeBtn.onclick` handler (`src/app.js` lines 118-160): a missing
or empty recording sets an error status and returns before any request; an
in-flight request disables the button and shows the spinner; the `catch`
branch restores the button and label.  The boolean records whether the HTTP
request was sent. -/
def analyzeClick (s : UIState) (outcome : FetchOutcome) : UIState × Bool :=
  match s.videoBlob with
  | none =>
      ({ s with statusMsg := "No recording to analyze", statusType := "error" }, false)
  | some n =>
      if n = 0 then
        ({ s with statusMsg := "Recording is empty - please record again",
                  statusType := "error" }, false)
      else
        let s1 := { s with statusMsg := "Analyzing with Whisper + Claude...",
                           statusType := "loading",
                           analyzeDisabled := true,
                           analyzeLabel := analyzeLabelLoading }
        match outcome with
        | .failure msg =>
            ({ s1 with statusMsg := "Error: " ++ msg, statusType := "error",
                       analyzeDisabled := false,
                       analyzeLabel := analyzeLabelDefault }, true)
        | .ok _data => (applyDisplayResults s1, true)

/-- The example word list used throughout the spec (spec §8): "so" at
0.0-0.5, "today" at 0.6-1.0, "um" at 5.2-5.4. -/
def exampleWords : List Word :=
  [⟨"so", 0, 0.5⟩, ⟨"today", 0.6, 1⟩, ⟨"um", 5.2, 5.4⟩]

-- Basic facts about the detector ------------------------------------------

theorem detect_gaps_nil (t : ℚ) : detect_gaps [] t = [] := rfl

theorem detect_gaps_single (w : Word) (t : ℚ) : detect_gaps [w] t = [] := rfl

theorem detect_gaps_short (ws : List Word) (t : ℚ) (h : ws.length < 2) :
    detect_gaps ws t = [] := by
  match ws with
  | [] => rfl
  | [w] => rfl
  | w1 :: w2 :: rest => simp at h; omega

theorem detect_gaps_eq_spec (ws : List Word) (t : ℚ) :
    detect_gaps ws t = gap_pauses_spec ws t := by
  induction ws with
  | nil => rfl
  | cons w1 tl ih =>
    cases tl with
    | nil => rfl
    | cons w2 rest =>
      simp only [detect_gaps, gap_pauses_spec, List.tail_cons, List.zip_cons_cons,
        List.filterMap_cons] at ih ⊢
      by_cases h : t ≤ w2.start - w1.«end»
      · simp only [if_pos h, ih]
      · simp only [if_neg h, ih]

theorem valid_words_cons (w : Word) (ws : List Word)
    (h : valid_words (w :: ws) = true) : valid_words ws = true := by
  match ws with
  | [] => rfl
  | w2 :: rest =>
    simp only [valid_words, Bool.and_eq_true] at h
    exact h.2

theorem valid_words_head_start_le_end (w : Word) (ws : List Word)
    (h : valid_words (w :: ws) = true) : w.start ≤ w.«end» := by
  match ws with
  | [] => simpa [valid_words] using h
  | w2 :: rest =>
    simp only [valid_words, Bool.and_eq_true, decide_eq_true_eq] at h
    exact h.1.1

theorem valid_words_head_start_le (w w2 : Word) (ws : List Word)
    (h : valid_words (w :: w2 :: ws) = true) : w.start ≤ w2.start := by
  simp only [valid_words, Bool.and_eq_true, decide_eq_true_eq] at h
  exact h.1.2

/-- Every pause emitted from a valid word list starting at `w` has its
`pause_start` at or after `w.start` (threshold assumed non-negative). -/
theorem detect_gaps_start_lb (t : ℚ) :
    ∀ (ws : List Word) (w : Word), valid_words (w :: ws) = true →
      ∀ p ∈ detect_gaps (w :: ws) t, w.start ≤ p.pause_start := by
  intro ws
  induction ws with
  | nil => intro w _ p hp; simp [detect_gaps] at hp
  | cons w2 rest ih =>
    intro w hv p hp
    have h1 : w.start ≤ w.«end» := valid_words_head_start_le_end _ _ hv
    have h2 : w.start ≤ w2.start := valid_words_head_start_le _ _ _ hv
    have hv2 : valid_words (w2 :: rest) = true := valid_words_cons _ _ hv
    simp only [detect_gaps] at hp
    by_cases hgap : t ≤ w2.start - w.«end»
    · rw [if_pos hgap] at hp
      rcases List.mem_cons.mp hp with h | h
      · rw [h]; exact h1
      · exact le_trans h2 (ih w2 hv2 p h)
    · rw [if_neg hgap] at hp
      exact le_trans h2 (ih w2 hv2 p hp)

/-- On a contract-conforming transcript with a non-negative threshold, the
emitted pauses are pairwise ordered by `pause_start`. -/
theorem detect_gaps_sorted (t : ℚ) (ht : 0 ≤ t) :
    ∀ ws : List Word, valid_words ws = true →
      List.Pairwise (fun p q : PauseEvent => p.pause_start ≤ q.pause_start)
        (detect_gaps ws t) := by
  intro ws
  induction ws with
  | nil => intro _; simp [detect_gaps]
  | cons w tl ih =>
    intro hv
    cases tl with
    | nil => simp [detect_gaps]
    | cons w2 rest =>
      have hv2 : valid_words (w2 :: rest) = true := valid_words_cons _ _ hv
      have htail := ih hv2
      simp only [detect_gaps]
      by_cases hgap : t ≤ w2.start - w.«end»
      · rw [if_pos hgap]
        refine List.Pairwise.cons ?_ htail
        intro p hp
        have hlb : w2.start ≤ p.pause_start :=
          le_trans (le_of_eq rfl) (by
            have := detect_gaps_start_lb t rest w2 hv2 p hp
            exact this)
        have : w.«end» ≤ w2.start := by linarith
        exact le_trans this hlb
      · rw [if_neg hgap]; exact htail

-- Lemmas about build_pauses ------------------------------------------------

theorem build_pauses_length (words : List Word) (gen : ℕ → Except GenError String)
    (i : ℕ) (es : List PauseEvent) :
    (build_pauses words gen i es).length = es.length := by
  induction es generalizing i with
  | nil => rfl
  | cons e rest ih => simp [build_pauses, ih]

theorem build_pauses_strip (words : List Word)
    (gen₁ gen₂ : ℕ → Except GenError String) (i : ℕ) (es : List PauseEvent) :
    (build_pauses words gen₁ i es).map stripPrompt
      = (build_pauses words gen₂ i es).map stripPrompt := by
  induction es generalizing i with
  | nil => rfl
  | cons e rest ih =>
    simp only [build_pauses, List.map_cons, ih (i + 1)]
    simp [stripPrompt, mk_pause]

theorem build_pauses_getElem? (words : List Word)
    (gen : ℕ → Except GenError String) (i j : ℕ) (es : List PauseEvent) :
    (build_pauses words gen i es)[j]? = (es[j]?).map (mk_pause words (gen (i + j))) := by
  induction es generalizing i j with
  | nil => simp [build_pauses]
  | cons e rest ih =>
    cases j with
    | zero => simp [build_pauses]
    | succ j =>
      simp only [build_pauses, List.getElem?_cons_succ, ih (i + 1) j]
      have : i + 1 + j = i + (j + 1) := by omega
      rw [this]

theorem build_pauses_pause_start_map (words : List Word)
    (gen : ℕ → Except GenError String) (i : ℕ) (es : List PauseEvent) :
    (build_pauses words gen i es).map Pause.pause_start
      = es.map PauseEvent.pause_start := by
  induction es generalizing i with
  | nil => rfl
  | cons e rest ih => simp [build_pauses, mk_pause, ih]

-- Inversion of a successful orchestrator run -------------------------------

theorem run_analysis_ok (audioSize : ℕ) (transcribe : Except String (List Word))
    (gen : ℕ → Except GenError String) (r : AnalysisResult)
    (h : (run_analysis audioSize transcribe gen).1 = .ok r) :
    ∃ words, transcribe = .ok words ∧ audioSize ≠ 0 ∧ valid_words words = true ∧
      r.pauses = build_pauses words gen 0 (detect_gaps words default_threshold) ∧
      r.transcript = full_text words ∧
      r.stats = { duration := transcript_duration words,
                  word_count := words.length,
                  pause_count := r.pauses.length } := by
  by_cases ha : audioSize = 0
  · simp [run_analysis, ha] at h
  · cases transcribe with
    | error msg => simp [run_analysis, ha] at h
    | ok words =>
      refine ⟨words, rfl, ha, ?_⟩
      by_cases hv : valid_words words = true
      · simp only [run_analysis, if_neg ha, detect_pauses, if_pos hv] at h
        have hr : r = _ := (Except.ok.injEq _ _).mp h.symm
        subst hr
        exact ⟨hv, rfl, rfl, rfl⟩
      · simp [run_analysis, ha, detect_pauses, hv] at h

/-- The transcript contract as the spec words it: every word has
`start <= end` and consecutive pairs have non-decreasing `start`. -/
theorem valid_words_iff (words : List Word) :
    valid_words words = true ↔
      ((∀ w ∈ words, w.start ≤ w.«end»)
        ∧ ∀ p ∈ words.zip words.tail, p.1.start ≤ p.2.start) := by
  induction words with
  | nil => simp [valid_words]
  | cons w tl ih =>
    cases tl with
    | nil => simp [valid_words]
    | cons w2 rest =>
      simp only [valid_words, Bool.and_eq_true, decide_eq_true_eq, ih,
        List.tail_cons, List.zip_cons_cons, List.forall_mem_cons]
      tauto

/-- C1: on an ordered word sequence the Pause Detector emits exactly one
pause per consecutive pair `(w[i], w[i+1])` whose gap `w[i+1].start - w[i].end`
is at least the threshold (inclusive at the boundary), with
`pause_start = w[i].end` and `duration = gap`; only interior gaps are
considered (never before the first word or after the last), fewer than 2
words yield an empty pause sequence, a gap of exactly 3.0 at threshold 3.0 is
emitted and a gap of 2.999 is not. -/
theorem C1_pause_per_qualifying_gap :
    (∀ (words : List Word) (t : ℚ), valid_words words = true →
        detect_pauses words t = .ok (gap_pauses_spec words t))
    ∧ (∀ (words : List Word) (t : ℚ), valid_words words = true →
        words.length < 2 → detect_pauses words t = .ok [])
    ∧ detect_gaps [⟨"a", 0, 1⟩, ⟨"b", 4, 5⟩] 3 = [⟨1, 3⟩]
    ∧ detect_gaps [⟨"a", 0, 1⟩, ⟨"b", 3.999, 5⟩] 3 = [] := by
  refine ⟨?_, ?_, ?_, ?_⟩
  · intro words t hv
    simp [detect_pauses, hv, detect_gaps_eq_spec]
  · intro words t hv hlen
    simp [detect_pauses, hv, detect_gaps_short words t hlen]
  · simp [detect_gaps]
    norm_num
  · simp [detect_gaps]
    norm_num

/-- C1 witness: concrete instantiation at a one-word transcript. -/
theorem C1_pause_per_qualifying_gap_witness :
    detect_pauses [Word.mk "a" 0 1] 3 = .ok (gap_pauses_spec [Word.mk "a" 0 1] 3)
    ∧ detect_pauses [Word.mk "a" 0 1] 3 = .ok [] :=
  ⟨C1_pause_per_qualifying_gap.1 [Word.mk "a" 0 1] 3 (by decide),
   C1_pause_per_qualifying_gap.2.1 [Word.mk "a" 0 1] 3 (by decide) (by decide)⟩

/-- C2: the Context Window Extractor selects exactly the words whose `end`
lies in the clamped window `[max 0 (pause_start - window), pause_start]`, in
original order, joined with single spaces; it never includes a word ending
after the pause or before the (unclamped) window start; on the spec's example
the single pause is at 1.0 with duration 4.2 and context "so today". -/
theorem C2_context_window_selection :
    (∀ (words : List Word) (ps win : ℚ) (w : Word),
        w ∈ context_words words ps win ↔
          w ∈ words ∧ w.«end» ≤ ps ∧ max 0 (ps - win) ≤ w.«end»)
    ∧ (∀ (words : List Word) (ps win : ℚ) (w : Word),
        w ∈ context_words words ps win →
          ¬ ps < w.«end» ∧ ¬ w.«end» < ps - win)
    ∧ (∀ (words : List Word) (ps win : ℚ),
        get_context words ps win
          = " ".intercalate ((words.filter fun w =>
              decide (w.«end» ≤ ps) && decide (max 0 (ps - win) ≤ w.«end»)).map Word.text))
    ∧ detect_pauses exampleWords 3 = .ok [⟨1, 4.2⟩]
    ∧ get_context exampleWords 1 15 = "so today" := by
  have hmem : ∀ (words : List Word) (ps win : ℚ) (w : Word),
      w ∈ context_words words ps win ↔
        w ∈ words ∧ w.«end» ≤ ps ∧ max 0 (ps - win) ≤ w.«end» := by
    intro words ps win w
    simp [context_words, List.mem_filter, and_assoc]
  refine ⟨hmem, ?_, ?_, ?_, ?_⟩
  · intro words ps win w hw
    rcases (hmem words ps win w).mp hw with ⟨-, h1, h2⟩
    refine ⟨not_lt.mpr h1, not_lt.mpr ?_⟩
    exact le_trans (le_max_right 0 (ps - win)) h2
  · intro words ps win
    rfl
  · simp [detect_pauses, exampleWords, valid_words, detect_gaps]
    norm_num
  · simp only [get_context, context_words, exampleWords, List.filter]
    norm_num
    decide

/-- C2 witness: the membership characterization and exclusion bound applied
to a concrete word inside a concrete window. -/
theorem C2_context_window_selection_witness :
    ¬ (1:ℚ) < (Word.mk "a" 0 1).«end» ∧ ¬ (Word.mk "a" 0 1).«end» < 1 - 15 :=
  C2_context_window_selection.2.1 [Word.mk "a" 0 1] 1 15 (Word.mk "a" 0 1)
    ((C2_context_window_selection.1 [Word.mk "a" 0 1] 1 15 (Word.mk "a" 0 1)).mpr
      ⟨by simp, by simp, by simp⟩)

/-- C8: a word sequence containing a word with `start > end`, or a
consecutive pair with decreasing `start` times, makes the Pause Detector fail
fast with an error instead of reordering or emitting pauses. -/
theorem C8_invalid_timings_fail_fast (words : List Word) (t : ℚ)
    (h : (∃ w ∈ words, w.«end» < w.start)
        ∨ ∃ p ∈ words.zip words.tail, p.2.start < p.1.start) :
    detect_pauses words t = .error .invalidTimings := by
  have hv : ¬ valid_words words = true := by
    intro hvalid
    rcases (valid_words_iff words).mp hvalid with ⟨h1, h2⟩
    rcases h with ⟨w, hw, hlt⟩ | ⟨p, hp, hlt⟩
    · exact absurd (h1 w hw) (not_le.mpr hlt)
    · exact absurd (h2 p hp) (not_le.mpr hlt)
  simp [detect_pauses, hv]

/-- C8 witness: a two-word transcript whose second word starts before the
first is rejected. -/
theorem C8_invalid_timings_fail_fast_witness :
    detect_pauses [Word.mk "a" 2 3, Word.mk "b" 1 4] 3 = .error .invalidTimings :=
  C8_invalid_timings_fail_fast [Word.mk "a" 2 3, Word.mk "b" 1 4] 3
    (Or.inr ⟨(Word.mk "a" 2 3, Word.mk "b" 1 4), by simp, by decide⟩)

/-- C3: per-pause generation failures are isolated: for any two per-pause
outcome maps the pipeline's success and its pauses (with prompts forgotten)
coincide — in particular with an all-success map — and any pause whose own
generation failed still appears, carrying the non-empty generic fallback
prompt. -/
theorem C3_generation_failure_isolated (audioSize : ℕ) (words : List Word)
    (gen gen' : ℕ → Except GenError String) (ha : audioSize ≠ 0) :
    ((run_analysis audioSize (.ok words) gen).1.isOk
        = (run_analysis audioSize (.ok words) gen').1.isOk)
    ∧ ((resultPauses (run_analysis audioSize (.ok words) gen).1).map stripPrompt
        = (resultPauses (run_analysis audioSize (.ok words) gen').1).map stripPrompt)
    ∧ (∀ i p, (resultPauses (run_analysis audioSize (.ok words) gen).1)[i]? = some p →
        (gen i).isOk = false →
        p.ai_prompt = fallback_prompt ∧ p.ai_prompt ≠ "") := by
  by_cases hv : valid_words words = true
  · simp only [run_analysis, if_neg ha, detect_pauses, if_pos hv, resultPauses]
    refine ⟨rfl, build_pauses_strip _ _ _ _ _, ?_⟩
    intro i p hp hfail
    rw [build_pauses_getElem?] at hp
    cases he : (detect_gaps words default_threshold)[i]? with
    | none => rw [he] at hp; simp at hp
    | some e =>
      rw [he] at hp
      simp only [Option.map_some', Option.some.injEq] at hp
      have hprompt : p.ai_prompt = prompt_for (gen i) (get_context words e.pause_start default_window) := by
        rw [← hp]
        simp [mk_pause]
      cases hg : gen i with
      | ok s => rw [hg] at hfail; simp [Except.isOk, Except.toBool] at hfail
      | error err =>
        rw [hg] at hprompt
        have : p.ai_prompt = fallback_prompt := by
          rw [hprompt, prompt_for]
          split <;> rfl
        exact ⟨this, by rw [this]; decide⟩
  · have hres : ∀ g : ℕ → Except GenError String,
        run_analysis audioSize (.ok words) g
          = (.error (.transcriptionError "invalid word timings"), true) := by
      intro g
      simp [run_analysis, ha, detect_pauses, hv]
    rw [hres gen, hres gen']
    refine ⟨rfl, rfl, ?_⟩
    intro i p hp
    simp [resultPauses] at hp

/-- C3 witness: concrete instantiation, one outcome map failing with a
timeout against one all-success map. -/
theorem C3_generation_failure_isolated_witness :
    ((run_analysis 1 (.ok []) (fun _ => .error .timeout)).1.isOk
        = (run_analysis 1 (.ok []) (fun _ => .ok "next")).1.isOk)
    ∧ ((resultPauses (run_analysis 1 (.ok []) (fun _ => .error .timeout)).1).map stripPrompt
        = (resultPauses (run_analysis 1 (.ok []) (fun _ => .ok "next")).1).map stripPrompt)
    ∧ (∀ (i : ℕ) (p : Pause),
        (resultPauses (run_analysis 1 (.ok []) (fun _ => .error .timeout)).1)[i]? = some p →
        (Except.error GenError.timeout : Except GenError String).isOk = false →
        p.ai_prompt = fallback_prompt ∧ p.ai_prompt ≠ "") :=
  C3_generation_failure_isolated 1 [] (fun _ => .error .timeout) (fun _ => .ok "next")
    (by decide)

/-- C4: a zero-byte audio input fails immediately with `InputError` and the
transcription boundary is never consulted (the outcome is a constant
independent of the transcription function, with the call flag false); on the
frontend, clicking Analyze with a null or zero-size blob sets an error status
and sends no HTTP request. -/
theorem C4_empty_input_rejected :
    (∀ (transcribe : Except String (List Word)) (gen : ℕ → Except GenError String),
        run_analysis 0 transcribe gen = (.error .inputError, false))
    ∧ (∀ (s : UIState) (o : FetchOutcome), s.videoBlob = none →
        (analyzeClick s o).2 = false ∧ (analyzeClick s o).1.statusType = "error")
    ∧ (∀ (s : UIState) (o : FetchOutcome), s.videoBlob = some 0 →
        (analyzeClick s o).2 = false ∧ (analyzeClick s o).1.statusType = "error") := by
  refine ⟨?_, ?_, ?_⟩
  · intro t g; rfl
  · intro s o hb; simp [analyzeClick, hb]
  · intro s o hb; simp [analyzeClick, hb]

/-- C4 witness: concrete frontend states with no blob and with an empty
blob. -/
theorem C4_empty_input_rejected_witness :
    ((analyzeClick ⟨none, true, "x", "y", "z"⟩ (.failure "e")).2 = false
      ∧ (analyzeClick ⟨none, true, "x", "y", "z"⟩ (.failure "e")).1.statusType = "error")
    ∧ ((analyzeClick ⟨some 0, true, "x", "y", "z"⟩ (.failure "e")).2 = false
      ∧ (analyzeClick ⟨some 0, true, "x", "y", "z"⟩ (.failure "e")).1.statusType = "error") :=
  ⟨C4_empty_input_rejected.2.1 ⟨none, true, "x", "y", "z"⟩ (.failure "e") rfl,
   C4_empty_input_rejected.2.2 ⟨some 0, true, "x", "y", "z"⟩ (.failure "e") rfl⟩

/-- C5: every successful analysis returns its pauses sorted ascending by
`pause_start`, for every per-pause generation outcome map. -/
theorem C5_pauses_sorted (audioSize : ℕ) (transcribe : Except String (List Word))
    (gen : ℕ → Except GenError String) (r : AnalysisResult)
    (h : (run_analysis audioSize transcribe gen).1 = .ok r) :
    List.Pairwise (fun p q : Pause => p.pause_start ≤ q.pause_start) r.pauses := by
  obtain ⟨words, -, -, hv, hpauses, -, -⟩ := run_analysis_ok _ _ _ _ h
  have hsorted := detect_gaps_sorted default_threshold (by norm_num [default_threshold]) words hv
  rw [hpauses]
  have hmap := build_pauses_pause_start_map words gen 0 (detect_gaps words default_threshold)
  have h1 : List.Pairwise (fun a b : ℚ => a ≤ b)
      ((build_pauses words gen 0 (detect_gaps words default_threshold)).map
        Pause.pause_start) := by
    rw [hmap]
    exact List.pairwise_map.mpr hsorted
  exact List.pairwise_map.mp h1

/-- C5 witness: the empty transcript's (successful) run. -/
theorem C5_pauses_sorted_witness :
    List.Pairwise (fun p q : Pause => p.pause_start ≤ q.pause_start)
      (AnalysisResult.mk "" ⟨0, 0, 0⟩ []).pauses :=
  C5_pauses_sorted 1 (.ok []) (fun _ => .ok "p") (AnalysisResult.mk "" ⟨0, 0, 0⟩ []) rfl

/-- C6: on every successful run the stats satisfy: duration is the end time
of the last word (0 when the transcript is empty), word_count the number of
words, pause_count the number of pause entries — the same count under any
other generation outcome map — and a zero-word transcript yields all-zero
stats with an empty pause sequence. -/
theorem C6_stats_consistent (audioSize : ℕ) (words : List Word)
    (gen gen' : ℕ → Except GenError String) (r : AnalysisResult)
    (h : (run_analysis audioSize (.ok words) gen).1 = .ok r) :
    r.stats.duration = ((words.getLast?).map Word.«end»).getD 0
    ∧ r.stats.word_count = words.length
    ∧ r.stats.pause_count = r.pauses.length
    ∧ r.stats.pause_count
        = (resultPauses (run_analysis audioSize (.ok words) gen').1).length
    ∧ (words = [] → r.stats = ⟨0, 0, 0⟩ ∧ r.pauses = []) := by
  obtain ⟨words0, heq, ha, hv, hpauses, htrans, hstats⟩ := run_analysis_ok _ _ _ _ h
  obtain rfl : words = words0 := by
    injection heq
  refine ⟨?_, ?_, ?_, ?_, ?_⟩
  · rw [hstats]
    cases hlast : words.getLast? with
    | none => simp [transcript_duration, hlast]
    | some w => simp [transcript_duration, hlast]
  · rw [hstats]
  · rw [hstats]
  · rw [hstats]
    simp only [run_analysis, if_neg ha, detect_pauses, if_pos hv, resultPauses]
    rw [hpauses, build_pauses_length, build_pauses_length]
  · intro hnil
    subst hnil
    have hp : r.pauses = [] := by
      rw [hpauses]; rfl
    constructor
    · rw [hstats, hp]
      rfl
    · exact hp

/-- C6 witness: the empty transcript's run has all-zero stats. -/
theorem C6_stats_consistent_witness :
    (AnalysisResult.mk "" ⟨0, 0, 0⟩ []).stats.duration
        = ((([] : List Word).getLast?).map Word.«end»).getD 0
    ∧ (AnalysisResult.mk "" ⟨0, 0, 0⟩ []).stats.word_count = ([] : List Word).length
    ∧ (AnalysisResult.mk "" ⟨0, 0, 0⟩ []).stats.pause_count
        = (AnalysisResult.mk "" ⟨0, 0, 0⟩ []).pauses.length
    ∧ (AnalysisResult.mk "" ⟨0, 0, 0⟩ []).stats.pause_count
        = (resultPauses (run_analysis 1 (.ok []) (fun _ => .ok "q")).1).length
    ∧ (([] : List Word) = [] →
        (AnalysisResult.mk "" ⟨0, 0, 0⟩ []).stats = ⟨0, 0, 0⟩
        ∧ (AnalysisResult.mk "" ⟨0, 0, 0⟩ []).pauses = []) :=
  C6_stats_consistent 1 [] (fun _ => .ok "p") (fun _ => .ok "q")
    (AnalysisResult.mk "" ⟨0, 0, 0⟩ []) rfl

/-- C7: a transcription failure terminates the request with a
`TranscriptionError` carrying the message, and no partial result exists (the
outcome is the bare error); when transcription succeeds — returning a
Transcript, which by the data-model invariant (spec §3) has contract-valid
timings — the caller always receives a complete AnalysisResult, whatever the
generation outcomes. -/
theorem C7_transcription_failure_fatal :
    (∀ (audioSize : ℕ) (msg : String) (gen : ℕ → Except GenError String),
        audioSize ≠ 0 →
        (run_analysis audioSize (.error msg) gen).1 = .error (.transcriptionError msg))
    ∧ (∀ (audioSize : ℕ) (words : List Word) (gen : ℕ → Except GenError String),
        audioSize ≠ 0 → valid_words words = true →
        ∃ r, (run_analysis audioSize (.ok words) gen).1 = .ok r) := by
  constructor
  · intro a msg g ha
    simp [run_analysis, ha]
  · intro a words g ha hv
    exact ⟨{ transcript := full_text words,
             stats := { duration := transcript_duration words,
                        word_count := words.length,
                        pause_count :=
                          (build_pauses words g 0 (detect_gaps words default_threshold)).length },
             pauses := build_pauses words g 0 (detect_gaps words default_threshold) },
           by simp [run_analysis, ha, detect_pauses, hv]⟩

/-- C7 witness: a failing and a succeeding transcription at audio size 1. -/
theorem C7_transcription_failure_fatal_witness :
    (run_analysis 1 (.error "no audio track") (fun _ => .ok "p")).1
        = .error (.transcriptionError "no audio track")
    ∧ ∃ r, (run_analysis 1 (.ok []) (fun _ => .ok "p")).1 = .ok r :=
  ⟨C7_transcription_failure_fatal.1 1 "no audio track" (fun _ => .ok "p") (by decide),
   C7_transcription_failure_fatal.2 1 [] (fun _ => .ok "p") (by decide) (by decide)⟩

/-- C9: `displayResults` renders 0 for duration, word_count and pause_count
whenever the response's `stats` field, or any of its sub-fields, is missing;
`displayedStats` is a total Lean function, so no exception is possible. -/
theorem C9_missing_stats_render_zero (data : AnalyzeResponse) :
    (data.stats = none → displayedStats data = (0, 0, 0))
    ∧ (∀ s, data.stats = some s →
        (s.duration = none → (displayedStats data).1 = 0)
        ∧ (s.word_count = none → (displayedStats data).2.1 = 0)
        ∧ (s.pause_count = none → (displayedStats data).2.2 = 0)) := by
  constructor
  · intro h
    simp [displayedStats, h, jsOrQ, jsOrN]
  · intro s h
    refine ⟨?_, ?_, ?_⟩ <;> intro hf <;> simp [displayedStats, h, hf, jsOrQ, jsOrN]

/-- C9 witness: a response with no stats object, and one whose stats object
has every sub-field missing. -/
theorem C9_missing_stats_render_zero_witness :
    displayedStats ⟨none, none, none⟩ = (0, 0, 0)
    ∧ (displayedStats ⟨some ⟨none, none, none⟩, none, none⟩).1 = 0 :=
  ⟨(C9_missing_stats_render_zero ⟨none, none, none⟩).1 rfl,
   ((C9_missing_stats_render_zero ⟨some ⟨none, none, none⟩, none, none⟩).2
      ⟨none, none, none⟩ rfl).1 rfl⟩

/-- C10: when the analyze request fails (the non-ok response and the network
error share the same catch block), the frontend re-enables the Analyze
button, resets its label to the default, and leaves the recorded blob
unchanged; the request had actually been sent. -/
theorem C10_failed_request_restores_ui (s : UIState) (n : ℕ) (msg : String)
    (hb : s.videoBlob = some n) (hn : n ≠ 0) :
    (analyzeClick s (.failure msg)).2 = true
    ∧ (analyzeClick s (.failure msg)).1.analyzeDisabled = false
    ∧ (analyzeClick s (.failure msg)).1.analyzeLabel = analyzeLabelDefault
    ∧ (analyzeClick s (.failure msg)).1.videoBlob = s.videoBlob := by
  simp [analyzeClick, hb, hn]

/-- C10 witness: a concrete failed request over a 5-byte recording. -/
theorem C10_failed_request_restores_ui_witness :
    (analyzeClick ⟨some 5, false, analyzeLabelDefault, "", ""⟩ (.failure "boom")).2 = true
    ∧ (analyzeClick ⟨some 5, false, analyzeLabelDefault, "", ""⟩
        (.failure "boom")).1.analyzeDisabled = false
    ∧ (analyzeClick ⟨some 5, false, analyzeLabelDefault, "", ""⟩
        (.failure "boom")).1.analyzeLabel = analyzeLabelDefault
    ∧ (analyzeClick ⟨some 5, false, analyzeLabelDefault, "", ""⟩
        (.failure "boom")).1.videoBlob
      = (UIState.mk (some 5) false analyzeLabelDefault "" "").videoBlob :=
  C10_failed_request_restores_ui ⟨some 5, false, analyzeLabelDefault, "", ""⟩ 5 "boom"
    rfl (by decide)
